import Mathlib

/-!
Verification development for the deepterminal trading system.

Shallow embedding of the execution/position/risk core:
- core/models/order.py        (Order, OrderStatus, update_status)
- core/models/position.py     (Position, close, unrealized pnl, PositionFactory)
- risk/calculator.py          (RiskCalculator.calculate_position_size)
- execution/engine.py         (ExecutionEngine: process_signal, order-status monitor)
- src/backtesting/backtest.py (MockPositionTracker, BacktestEngine.run, metrics)

Python floats are modelled as rationals; where pandas NaN/inf semantics matter
(the drawdown column of the backtest metrics) a dedicated PFloat type models
them explicitly.  Timestamps are abstract naturals.  Names follow the source;
renamings forced by Lean keywords are noted next to each definition.
-/

namespace DeepTerminal

/-- Python round(): round half to even (banker rounding), as used by
`round(position_size / lot_size)` in risk/calculator.py. -/
def pyRound (q : ℚ) : ℤ :=
  let f : ℤ := ⌊q⌋
  let r : ℚ := q - (f : ℚ)
  if r < 1/2 then f
  else if 1/2 < r then f + 1
  else if f % 2 = 0 then f else f + 1

/-- Python truthiness of an optional float: `None` and `0.0` are falsy.
Used for checks such as `if order.stop_loss_price:`. -/
def truthy : Option ℚ → Bool
  | none => false
  | some x => x ≠ 0

/-! ## core/models/order.py -/

/-- OrderSide (order.py line 25). -/
inductive OrderSide where
  | buy
  | sell
deriving DecidableEq, Repr

/-- OrderType (order.py line 16). TRAILING_STOP is rendered trailingStop. -/
inductive OrderType where
  | market
  | limit
  | stop
  | stopLimit
  | trailingStop
deriving DecidableEq, Repr

/-- OrderStatus (order.py line 39).  PARTIALLY_FILLED is rendered partFilled
and ERROR is rendered errorStatus to avoid Lean keywords. -/
inductive OrderStatus where
  | created
  | pending
  | accepted
  | partFilled
  | filled
  | cancelled
  | rejected
  | expired
  | errorStatus
deriving DecidableEq, Repr

/-- Instrument (core/models/instrument.py).  Only the fields read by the
verified components are carried.  `contract_size` models the result of
`getattr(instrument, 'contract_size', 1.0)` in risk/calculator.py: the base
Instrument has no such attribute, so a plain instrument carries 1. -/
structure Instrument where
  symbol : String
  lot_size : ℚ
  contract_size : ℚ := 1
deriving DecidableEq, Repr

/-- Order (order.py line 52).  datetime fields are dropped (they feed no
verified computation); ids are strings as in the source. -/
structure Order where
  id : String
  exchange_order_id : Option String := none
  instrument : Instrument
  side : OrderSide
  order_type : OrderType
  quantity : ℚ
  price : Option ℚ := none
  stop_price : Option ℚ := none
  status : OrderStatus := OrderStatus.created
  filled_quantity : ℚ := 0
  average_fill_price : Option ℚ := none
  remaining_quantity : Option ℚ := none
  strategy_id : Option String := none
  stop_loss_price : Option ℚ := none
  take_profit_price : Option ℚ := none
deriving DecidableEq, Repr

/-- Order.update_status (order.py lines 90-123), translated statement by
statement.  The `updated_at` timestamp write is dropped. -/
def Order.update_status (o : Order) (new_status : OrderStatus)
    (filled_qty : Option ℚ := none) (fill_price : Option ℚ := none) : Order :=
  let o := { o with status := new_status }
  match filled_qty with
  | none => o
  | some fq =>
    if fq > 0 then
      let previous_filled := o.filled_quantity
      let o := { o with filled_quantity := o.filled_quantity + fq }
      let o :=
        match fill_price with
        | none => o
        | some fp =>
          match o.average_fill_price with
          | none => { o with average_fill_price := some fp }
          | some avg =>
            let newAvg := (previous_filled * avg + fq * fp) / o.filled_quantity
            { o with average_fill_price := some newAvg }
      let o := { o with remaining_quantity := some (max 0 (o.quantity - o.filled_quantity)) }
      if o.filled_quantity ≥ o.quantity then
        { o with status := OrderStatus.filled }
      else if o.filled_quantity > 0 then
        { o with status := OrderStatus.partFilled }
      else o
    else o

/-- Order.is_active (order.py lines 125-139). -/
def Order.is_active (o : Order) : Bool :=
  ¬ (o.status = OrderStatus.filled ∨ o.status = OrderStatus.cancelled ∨
     o.status = OrderStatus.rejected ∨ o.status = OrderStatus.expired ∨
     o.status = OrderStatus.errorStatus)

/-! ## core/models/position.py -/

/-- PositionSide (position.py line 16). -/
inductive PositionSide where
  | long
  | short
deriving DecidableEq, Repr

/-- PositionStatus (position.py line 22).  OPEN is rendered opened and
PARTIALLY_CLOSED is rendered partClosed to avoid Lean keywords. -/
inductive PositionStatus where
  | opened
  | closed
  | partClosed
deriving DecidableEq, Repr

/-- Position (position.py line 29).  Timestamps are abstract naturals. -/
structure Position where
  id : String
  instrument : Instrument
  side : PositionSide
  quantity : ℚ
  entry_price : ℚ
  current_price : ℚ
  unrealized_pnl : ℚ := 0
  realized_pnl : ℚ := 0
  open_time : ℕ
  close_time : Option ℕ := none
  status : PositionStatus := PositionStatus.opened
  stop_loss : Option ℚ := none
  take_profit : Option ℚ := none
  entry_order_ids : List String := []
  exit_order_ids : List String := []
  stop_order_ids : List String := []
  strategy_id : Option String := none
deriving DecidableEq, Repr

/-- Position.calculate_unrealized_pnl (position.py lines 73-85).  The Python
method mutates and returns the value; the embedding returns the mutated
record (the value is readable off the `unrealized_pnl` field). -/
def Position.calculate_unrealized_pnl (p : Position) : Position :=
  if p.side = PositionSide.long then
    { p with unrealized_pnl := (p.current_price - p.entry_price) * p.quantity }
  else
    { p with unrealized_pnl := (p.entry_price - p.current_price) * p.quantity }

/-- Position.update_price (position.py lines 63-71). -/
def Position.update_price (p : Position) (current_price : ℚ) : Position :=
  Position.calculate_unrealized_pnl { p with current_price := current_price }

/-- Position.close (position.py lines 87-120).  `none` quantity closes the
whole position; the guard raises (models `raise ValueError`) before any field
is written, so the error case leaves the position untouched.  `now` stands for
`datetime.utcnow()`.  Returns the mutated position and the pnl of the closed
portion. -/
def Position.close (p : Position) (exit_price : ℚ) (quantity : Option ℚ)
    (now : ℕ) : Except String (Position × ℚ) :=
  let quantity_to_close := quantity.getD p.quantity
  if quantity_to_close > p.quantity then
    Except.error "Cannot close more than the position size"
  else
    let pnl :=
      if p.side = PositionSide.long then (exit_price - p.entry_price) * quantity_to_close
      else (p.entry_price - exit_price) * quantity_to_close
    let p := { p with realized_pnl := p.realized_pnl + pnl }
    let p := { p with quantity := p.quantity - quantity_to_close }
    let p :=
      if p.quantity ≤ 0 then
        { p with status := PositionStatus.closed, close_time := some now }
      else
        { p with status := PositionStatus.partClosed }
    Except.ok (p, pnl)

/-- PositionFactory.create_position (position.py lines 187-249).  The Python
signature annotates `entry_price: float`, but the value arriving from the
execution engine is `order.average_fill_price`, which may be `None`; pydantic
validation of `Position(...)` rejects `None` for the required float fields
`entry_price`/`current_price`, raising ValidationError.  The embedding makes
that dynamic behaviour explicit: optional inputs, `Except.error` on the
values pydantic rejects. -/
def PositionFactory.create_position (instrument : Instrument) (side : OrderSide)
    (quantity : ℚ) (entry_price : Option ℚ) (current_price : Option ℚ)
    (strategy_id : Option String) (stop_loss : Option ℚ) (take_profit : Option ℚ)
    (entry_order_ids : List String) (now : ℕ) : Except String Position :=
  let position_side := if side = OrderSide.buy then PositionSide.long else PositionSide.short
  let current_price := if current_price = none then entry_price else current_price
  match entry_price, current_price with
  | some ep, some cp =>
    let position : Position :=
      { id := instrument.symbol ++ "_" ++ toString now
        instrument := instrument
        side := position_side
        quantity := quantity
        entry_price := ep
        current_price := cp
        open_time := now
        strategy_id := strategy_id
        stop_loss := stop_loss
        take_profit := take_profit
        entry_order_ids := entry_order_ids }
    Except.ok position.calculate_unrealized_pnl
  | _, _ => Except.error "ValidationError: none is not an allowed value"

/-! ## risk/calculator.py -/

/-- RiskCalculator constructor parameters (calculator.py lines 17-36); the
defaults are the source defaults (1%, 5%, 1.5). -/
structure RiskCalculator where
  default_risk_percentage : ℚ := 1/100
  max_risk_percentage : ℚ := 5/100
  min_risk_reward_ratio : ℚ := 3/2
deriving DecidableEq, Repr

/-- The effective risk amount of calculator.py lines 64-72: requested (or
default) risk percentage, capped at the maximum, times the balance. -/
def RiskCalculator.risk_amount (rc : RiskCalculator) (account_balance : ℚ)
    (risk_percentage : Option ℚ) : ℚ :=
  account_balance * min (risk_percentage.getD rc.default_risk_percentage) rc.max_risk_percentage

/-- per_unit_risk of calculator.py line 75. -/
def per_unit_risk (entry_price stop_loss : ℚ) : ℚ :=
  |entry_price - stop_loss|

/-- risk_reward_ratio of calculator.py lines 84-85. -/
def risk_reward_ratio (entry_price stop_loss take_profit : ℚ) : ℚ :=
  |take_profit - entry_price| / per_unit_risk entry_price stop_loss

/-- RiskCalculator.calculate_position_size (calculator.py lines 41-122),
translated statement by statement. -/
def RiskCalculator.calculate_position_size (rc : RiskCalculator)
    (account_balance entry_price stop_loss : ℚ) (instrument : Instrument)
    (risk_percentage : Option ℚ := none) (take_profit : Option ℚ := none) : ℚ :=
  let risk_amount := rc.risk_amount account_balance risk_percentage
  let pur := per_unit_risk entry_price stop_loss
  if pur ≤ 0 then 0
  else
    let risk_amount :=
      match take_profit with
      | none => risk_amount
      | some tp =>
        let ratio := risk_reward_ratio entry_price stop_loss tp
        if ratio < rc.min_risk_reward_ratio then
          risk_amount * (ratio / rc.min_risk_reward_ratio)
        else risk_amount
    let raw_position_size := risk_amount / pur
    let contract_size := instrument.contract_size
    let position_size := raw_position_size / contract_size
    let lot_size := instrument.lot_size
    let position_size := (pyRound (position_size / lot_size) : ℚ) * lot_size
    if position_size < lot_size then lot_size else position_size

/-! ## core/models/signal.py -/

/-- SignalStatus (signal.py line 32). -/
inductive SignalStatus where
  | active
  | executed
  | expired
  | cancelled
  | invalidated
deriving DecidableEq, Repr

/-- Signal (signal.py line 41).  `signal_type` is kept as a string because the
engine dispatches on the string values "entry"/"exit". -/
structure Signal where
  id : String
  instrument : Instrument
  signal_type : String
  side : OrderSide
  expiration : Option ℕ := none
  status : SignalStatus := SignalStatus.active
  entry_price : Option ℚ := none
  stop_loss : Option ℚ := none
  take_profit : Option ℚ := none
  strategy_id : String := ""
  order_ids : List String := []
  position_id : Option String := none
deriving DecidableEq, Repr

/-- Signal.is_active (signal.py lines 82-97).  It lazily expires the signal,
so the (possibly mutated) signal is returned along with the answer. -/
def Signal.is_active (s : Signal) (now : ℕ) : Bool × Signal :=
  if s.status ≠ SignalStatus.active then (false, s)
  else
    match s.expiration with
    | some exp =>
      if now > exp then (false, { s with status := SignalStatus.expired })
      else (true, s)
    | none => (true, s)

/-- Signal.execute (signal.py lines 99-110).  `if position_id:` is a Python
truthiness check: both None and the empty string leave position_id unset. -/
def Signal.execute (s : Signal) (order_ids : List String)
    (position_id : Option String := none) : Signal :=
  let s := { s with status := SignalStatus.executed, order_ids := s.order_ids ++ order_ids }
  match position_id with
  | some pid => if pid ≠ "" then { s with position_id := some pid } else s
  | none => s

/-! ## execution/engine.py

The broker (`self.exchange`) is an out-of-scope collaborator; it is modelled
as an oracle record of pure response functions.  `uuid4()` order ids are
determinized by a fresh-id counter threaded through the engine state.  Each
engine operation additionally returns the list of orders it submitted via
`exchange.place_order`, so that "places an order" is observable. -/

/-- Order factories (order.py lines 154-275) restricted to the fields the
engine passes; the generated uuid is an explicit argument. -/
def OrderFactory.create_market_order (id : String) (instrument : Instrument)
    (side : OrderSide) (quantity : ℚ) (strategy_id : Option String) : Order :=
  { id := id, instrument := instrument, side := side,
    order_type := OrderType.market, quantity := quantity, strategy_id := strategy_id }

/-- OrderFactory.create_limit_order (order.py lines 184-212). -/
def OrderFactory.create_limit_order (id : String) (instrument : Instrument)
    (side : OrderSide) (quantity : ℚ) (price : ℚ) (strategy_id : Option String) : Order :=
  { id := id, instrument := instrument, side := side,
    order_type := OrderType.limit, quantity := quantity, price := some price,
    strategy_id := strategy_id }

/-- OrderFactory.create_stop_order (order.py lines 214-242). -/
def OrderFactory.create_stop_order (id : String) (instrument : Instrument)
    (side : OrderSide) (quantity : ℚ) (stop_price : ℚ) (strategy_id : Option String) : Order :=
  { id := id, instrument := instrument, side := side,
    order_type := OrderType.stop, quantity := quantity, stop_price := some stop_price,
    strategy_id := strategy_id }

/-- Broker oracle.  `account_info`: outer none models a falsy response, the
inner option models the presence of the "balance" key.  `place_order` yields
(success, exchange order id). -/
structure Exchange where
  account_info : Option (Option ℚ)
  place_order : Order → Bool × String
  get_position : Instrument → Option Position
  market_price : Instrument → Option ℚ
  order_status : Option String → Option OrderStatus
  cancel_order : Option String → Bool

/-- The mutable fields of ExecutionEngine (engine.py lines 40-63).  The two
dicts are insertion-ordered association lists, as Python dicts are. -/
structure EngineState where
  running : Bool := false
  max_concurrent_orders : ℕ := 10
  active_orders : List (String × Order) := []
  active_positions : List (String × Position) := []
  signal_order_map : List (String × List String) := []
  processed_signals : List String := []
  total_orders : ℕ := 0
  successful_orders : ℕ := 0
  failed_orders : ℕ := 0
  total_positions : ℕ := 0
  next_order_id : ℕ := 0

/-- In-place update of an association-list entry (Python dict assignment to
an existing key / mutation of the stored object). -/
def assocSet {α : Type} (k : String) (v : α) (l : List (String × α)) : List (String × α) :=
  l.map (fun kv => if kv.1 = k then (k, v) else kv)

/-- Python `del d[k]`. -/
def assocRemove {α : Type} (k : String) (l : List (String × α)) : List (String × α) :=
  l.filter (fun kv => kv.1 ≠ k)

/-- engine.py lines 263-265 / 348-350: append an order id to the signal map,
creating the entry if absent. -/
def mapAppend (k v : String) (m : List (String × List String)) : List (String × List String) :=
  if (m.lookup k).isSome then
    m.map (fun kv => if kv.1 = k then (kv.1, kv.2 ++ [v]) else kv)
  else m ++ [(k, [v])]

/-- ExecutionEngine._process_entry_signal (engine.py lines 176-280). -/
def ExecutionEngine.process_entry_signal (rc : RiskCalculator) (st : EngineState)
    (ex : Exchange) (signal : Signal) : Bool × EngineState × Signal × List Order :=
  match ex.account_info with
  | none => (false, st, signal, [])
  | some info =>
    let account_balance := info.getD 0
    let entry_price :=
      if truthy signal.entry_price then signal.entry_price
      else ex.market_price signal.instrument
    match entry_price with
    | none => (false, st, signal, [])
    | some entry_price =>
      match signal.stop_loss with
      | none => (false, st, signal, [])
      | some stop_loss =>
        let position_size := rc.calculate_position_size account_balance entry_price
          stop_loss signal.instrument (some (1/100)) none
        if position_size ≤ 0 then (false, st, signal, [])
        else
          let lot_size := signal.instrument.lot_size
          let position_size := (pyRound (position_size / lot_size) : ℚ) * lot_size
          let position_size := if position_size < lot_size then lot_size else position_size
          let oid := "order_" ++ toString st.next_order_id
          let st := { st with next_order_id := st.next_order_id + 1 }
          let order :=
            if truthy signal.entry_price then
              OrderFactory.create_limit_order oid signal.instrument signal.side
                position_size (signal.entry_price.getD 0) (some signal.strategy_id)
            else
              OrderFactory.create_market_order oid signal.instrument signal.side
                position_size (some signal.strategy_id)
          let placed := ex.place_order order
          if ¬ placed.1 then
            (false, { st with failed_orders := st.failed_orders + 1 }, signal, [order])
          else
            let order := { order with exchange_order_id := some placed.2 }
            let st := { st with active_orders := st.active_orders ++ [(order.id, order)] }
            let st := { st with signal_order_map := mapAppend signal.id order.id st.signal_order_map }
            let signal := signal.execute [order.id]
            let st := { st with total_orders := st.total_orders + 1,
                                successful_orders := st.successful_orders + 1 }
            (true, st, signal, [order])

/-- ExecutionEngine._process_exit_signal (engine.py lines 282-369). -/
def ExecutionEngine.process_exit_signal (st : EngineState) (ex : Exchange)
    (signal : Signal) : Bool × EngineState × Signal × List Order :=
  match signal.position_id with
  | none => (false, st, signal, [])
  | some position_id =>
    if position_id = "" then (false, st, signal, [])
    else
      let found : Option Position × EngineState :=
        match st.active_positions.lookup position_id with
        | some pos => (some pos, st)
        | none =>
          match ex.get_position signal.instrument with
          | none => (none, st)
          | some pos =>
            (some pos, { st with active_positions := st.active_positions ++ [(position_id, pos)] })
      match found.1 with
      | none => (false, found.2, signal, [])
      | some position =>
        let st := found.2
        let exit_side := if position.side = PositionSide.long then OrderSide.sell else OrderSide.buy
        let oid := "order_" ++ toString st.next_order_id
        let st := { st with next_order_id := st.next_order_id + 1 }
        let order :=
          if truthy signal.entry_price then
            OrderFactory.create_limit_order oid signal.instrument exit_side
              position.quantity (signal.entry_price.getD 0) (some signal.strategy_id)
          else
            OrderFactory.create_market_order oid signal.instrument exit_side
              position.quantity (some signal.strategy_id)
        let placed := ex.place_order order
        if ¬ placed.1 then
          (false, { st with failed_orders := st.failed_orders + 1 }, signal, [order])
        else
          let order := { order with exchange_order_id := some placed.2 }
          let st := { st with active_orders := st.active_orders ++ [(order.id, order)] }
          let st := { st with signal_order_map := mapAppend signal.id order.id st.signal_order_map }
          let position := { position with exit_order_ids := position.exit_order_ids ++ [order.id] }
          let st := { st with active_positions := assocSet position_id position st.active_positions }
          let signal := signal.execute [order.id] (some position_id)
          let st := { st with total_orders := st.total_orders + 1,
                              successful_orders := st.successful_orders + 1 }
          (true, st, signal, [order])

/-- ExecutionEngine.process_signal (engine.py lines 127-174). -/
def ExecutionEngine.process_signal (rc : RiskCalculator) (st : EngineState)
    (ex : Exchange) (signal : Signal) (now : ℕ) : Bool × EngineState × Signal × List Order :=
  if ¬ st.running then (false, st, signal, [])
  else
    let a := signal.is_active now
    let signal := a.2
    if ¬ a.1 then (false, st, signal, [])
    else if signal.id ∈ st.processed_signals then (false, st, signal, [])
    else if st.active_orders.length ≥ st.max_concurrent_orders then (false, st, signal, [])
    else
      let r :=
        if signal.signal_type = "entry" then
          ExecutionEngine.process_entry_signal rc st ex signal
        else if signal.signal_type = "exit" then
          ExecutionEngine.process_exit_signal st ex signal
        else (false, st, signal, [])
      let st :=
        if r.1 then { r.2.1 with processed_signals := r.2.1.processed_signals ++ [r.2.2.1.id] }
        else r.2.1
      (r.1, st, r.2.2.1, r.2.2.2)

/-- ExecutionEngine._place_stop_loss_order (engine.py lines 532-581).  Also
returns the submitted orders. -/
def ExecutionEngine.place_stop_loss_order (st : EngineState) (ex : Exchange)
    (position_id : String) (position : Position) (stop_price : ℚ) :
    EngineState × Position × List Order :=
  let side := if position.side = PositionSide.long then OrderSide.sell else OrderSide.buy
  let oid := "order_" ++ toString st.next_order_id
  let st := { st with next_order_id := st.next_order_id + 1 }
  let order := OrderFactory.create_stop_order oid position.instrument side
    position.quantity stop_price position.strategy_id
  let placed := ex.place_order order
  if ¬ placed.1 then (st, position, [order])
  else
    let order := { order with exchange_order_id := some placed.2 }
    let st := { st with active_orders := st.active_orders ++ [(order.id, order)] }
    let position := { position with stop_order_ids := position.stop_order_ids ++ [order.id] }
    let st := { st with active_positions := assocSet position_id position st.active_positions }
    let st := { st with total_orders := st.total_orders + 1,
                        successful_orders := st.successful_orders + 1 }
    (st, position, [order])

/-- ExecutionEngine._place_take_profit_order (engine.py lines 583-632). -/
def ExecutionEngine.place_take_profit_order (st : EngineState) (ex : Exchange)
    (position_id : String) (position : Position) (take_profit_price : ℚ) :
    EngineState × Position × List Order :=
  let side := if position.side = PositionSide.long then OrderSide.sell else OrderSide.buy
  let oid := "order_" ++ toString st.next_order_id
  let st := { st with next_order_id := st.next_order_id + 1 }
  let order := OrderFactory.create_limit_order oid position.instrument side
    position.quantity take_profit_price position.strategy_id
  let placed := ex.place_order order
  if ¬ placed.1 then (st, position, [order])
  else
    let order := { order with exchange_order_id := some placed.2 }
    let st := { st with active_orders := st.active_orders ++ [(order.id, order)] }
    let position := { position with exit_order_ids := position.exit_order_ids ++ [order.id] }
    let st := { st with active_positions := assocSet position_id position st.active_positions }
    let st := { st with total_orders := st.total_orders + 1,
                        successful_orders := st.successful_orders + 1 }
    (st, position, [order])

/-- ExecutionEngine._handle_entry_fill (engine.py lines 450-490).  The
position is built from the order fill fields; a pydantic ValidationError in
`PositionFactory.create_position` propagates as `Except.error` (no state was
mutated before the raise). -/
def ExecutionEngine.handle_entry_fill (st : EngineState) (ex : Exchange)
    (order : Order) (now : ℕ) : Except String (EngineState × List Order) :=
  match PositionFactory.create_position order.instrument order.side
      order.filled_quantity order.average_fill_price order.average_fill_price
      order.strategy_id order.stop_loss_price order.take_profit_price
      [order.id] now with
  | Except.error e => Except.error e
  | Except.ok position =>
    let st := { st with active_positions := st.active_positions ++ [(position.id, position)],
                        total_positions := st.total_positions + 1 }
    let step1 :=
      if truthy order.stop_loss_price then
        ExecutionEngine.place_stop_loss_order st ex position.id position
          (order.stop_loss_price.getD 0)
      else (st, position, [])
    match step1 with
    | (st, position, placed1) =>
      let step2 :=
        if truthy order.take_profit_price then
          ExecutionEngine.place_take_profit_order st ex position.id position
            (order.take_profit_price.getD 0)
        else (st, position, [])
      match step2 with
      | (st, _, placed2) => Except.ok (st, placed1 ++ placed2)

/-- ExecutionEngine._cancel_position_orders (engine.py lines 634-659). -/
def ExecutionEngine.cancel_position_orders (st : EngineState) (ex : Exchange)
    (position : Position) : EngineState :=
  let order_ids := position.stop_order_ids ++ position.exit_order_ids
  order_ids.foldl (fun st order_id =>
    match st.active_orders.lookup order_id with
    | none => st
    | some order =>
      if order.is_active then
        if ex.cancel_order order.exchange_order_id then
          { st with active_orders :=
              assocSet order_id (order.update_status OrderStatus.cancelled) st.active_orders }
        else st
      else st) st

/-- ExecutionEngine._handle_exit_fill (engine.py lines 492-517).  The exit
price is `order.average_fill_price`; a `None` there makes `Position.close`
raise a TypeError, and an oversized fill makes it raise ValueError, both
modelled as `Except.error` (nothing was mutated before the raise). -/
def ExecutionEngine.handle_exit_fill (st : EngineState) (ex : Exchange)
    (order : Order) (position_id : String) (position : Position) (now : ℕ) :
    Except String (EngineState × List Order) :=
  match order.average_fill_price with
  | none => Except.error "TypeError: unsupported operand"
  | some exit_price =>
    match position.close exit_price (some order.filled_quantity) now with
    | Except.error e => Except.error e
    | Except.ok (position, _pnl) =>
      let st := { st with active_positions := assocSet position_id position st.active_positions }
      if position.status = PositionStatus.closed then
        let st := { st with active_positions := assocRemove position_id st.active_positions }
        Except.ok (ExecutionEngine.cancel_position_orders st ex position, [])
      else
        Except.ok (st, [])

/-- ExecutionEngine._handle_filled_order (engine.py lines 425-448): an order
linked to some tracked position through exit_order_ids is an exit fill, any
other order is an entry fill.  (The `order.side == BUY or order.side == SELL`
guard of line 433 is always true.) -/
def ExecutionEngine.handle_filled_order (st : EngineState) (ex : Exchange)
    (order : Order) (now : ℕ) : Except String (EngineState × List Order) :=
  match st.active_positions.find? (fun kv => order.id ∈ kv.2.exit_order_ids) with
  | some kv => ExecutionEngine.handle_exit_fill st ex order kv.1 kv.2 now
  | none => ExecutionEngine.handle_entry_fill st ex order now

/-- One order of one pass of ExecutionEngine._monitor_order_status (engine.py
lines 371-423): query the broker status, update the local order (note: with
no fill quantity or price), dispatch fill/failure handling, evict the order
once terminal.  An exception thrown by the handler is caught by the loop
(line 418); the status mutation that happened before the raise persists. -/
def ExecutionEngine.monitor_step (st : EngineState) (ex : Exchange)
    (order_id : String) (now : ℕ) : EngineState × List Order :=
  match st.active_orders.lookup order_id with
  | none => (st, [])
  | some order =>
    if ¬ order.is_active then (st, [])
    else
      match ex.order_status order.exchange_order_id with
      | none => (st, [])
      | some status =>
        if status ≠ order.status then
          let order := order.update_status status
          let st := { st with active_orders := assocSet order_id order st.active_orders }
          let result : Except String (EngineState × List Order) :=
            if status = OrderStatus.filled ∨ status = OrderStatus.partFilled then
              ExecutionEngine.handle_filled_order st ex order now
            else
              Except.ok (st, [])
          match result with
          | Except.error _ => (st, [])
          | Except.ok (st, placed) =>
            let st :=
              if ¬ order.is_active then
                { st with active_orders := assocRemove order_id st.active_orders }
              else st
            (st, placed)
        else (st, [])

/-! ## src/backtesting/backtest.py

The backtest engine replays bars through a strategy and mock order/position
collaborators.  Only the Close column of a bar feeds the verified
computations (mark price, equity curve, metrics), so a bar is its close.
The strategy is an arbitrary function giving, for each bar, the mock orders
it places on that bar: (transaction_type, quantity, price).  A mock market
order whose price is None would raise a TypeError inside
`update_position` (uncaught in `run`), so completed runs only ever process
priced orders; the embedding therefore carries the price as a rational. -/

/-- MockPosition (backtest.py lines 51-66), restricted to the fields the
equity computation reads. -/
structure MockPosition where
  quantity : ℤ
  average_price : ℚ
  last_price : ℚ
  unrealized_pnl : ℚ
  realized_pnl : ℚ
deriving DecidableEq, Repr

/-- backtest.py lines 245-259: the MockPosition constructor call at the end
of `update_position` plus the two assignments after it.  The stored average
price is zeroed for a flat position, but the unrealized pnl is recomputed
from the pre-zeroing `new_average_price`, exactly as in the source. -/
def mkMockPosition (new_quantity : ℤ) (new_average_price : ℚ) (price : ℚ)
    (realized_pnl : ℚ) : MockPosition :=
  { quantity := new_quantity
    average_price := if new_quantity ≠ 0 then new_average_price else 0
    last_price := price
    unrealized_pnl := (price - new_average_price) * (new_quantity : ℚ)
    realized_pnl := realized_pnl }

/-- MockPositionTracker.update_position (backtest.py lines 149-259) for a
single instrument key, translated branch by branch.  `pos?` is the current
entry of the positions dict (none when absent, giving the placeholder
current values of lines 160-166). -/
def MockPositionTracker.update_position (pos? : Option MockPosition)
    (transaction_type : String) (quantity : ℤ) (price : ℚ) : MockPosition :=
  let current_quantity : ℤ := match pos? with | some p => p.quantity | none => 0
  let current_average_price : ℚ := match pos? with | some p => p.average_price | none => 0
  let realized_pnl : ℚ := match pos? with | some p => p.realized_pnl | none => 0
  if transaction_type = "BUY" then
    if current_quantity < 0 ∧ |current_quantity| ≥ quantity then
      let new_quantity := current_quantity + quantity
      let closing_quantity := quantity
      let trade_pnl := (current_average_price - price) * (closing_quantity : ℚ)
      let realized_pnl := realized_pnl + trade_pnl
      let new_average_price := if new_quantity = 0 then 0 else current_average_price
      mkMockPosition new_quantity new_average_price price realized_pnl
    else
      let closing_quantity := if current_quantity < 0 then min |current_quantity| quantity else 0
      let new_position_quantity := quantity - closing_quantity
      let realized_pnl :=
        if closing_quantity > 0 then
          realized_pnl + (current_average_price - price) * (closing_quantity : ℚ)
        else realized_pnl
      if current_quantity ≤ 0 then
        mkMockPosition new_position_quantity price price realized_pnl
      else
        let new_quantity := current_quantity + quantity
        let new_average_price :=
          ((current_quantity : ℚ) * current_average_price + (quantity : ℚ) * price) / (new_quantity : ℚ)
        mkMockPosition new_quantity new_average_price price realized_pnl
  else
    if current_quantity > 0 ∧ current_quantity ≥ quantity then
      let new_quantity := current_quantity - quantity
      let closing_quantity := quantity
      let trade_pnl := (price - current_average_price) * (closing_quantity : ℚ)
      let realized_pnl := realized_pnl + trade_pnl
      let new_average_price := if new_quantity = 0 then 0 else current_average_price
      mkMockPosition new_quantity new_average_price price realized_pnl
    else
      let closing_quantity := if current_quantity > 0 then min current_quantity quantity else 0
      let new_position_quantity := quantity - closing_quantity
      let realized_pnl :=
        if closing_quantity > 0 then
          realized_pnl + (price - current_average_price) * (closing_quantity : ℚ)
        else realized_pnl
      if current_quantity ≥ 0 then
        mkMockPosition (-new_position_quantity) price price realized_pnl
      else
        let new_quantity := current_quantity - quantity
        let current_abs_quantity := |current_quantity|
        let new_abs_quantity := |new_quantity|
        let new_average_price :=
          ((current_abs_quantity : ℚ) * current_average_price + (quantity : ℚ) * price) / (new_abs_quantity : ℚ)
        mkMockPosition new_quantity new_average_price price realized_pnl

/-- MockPositionTracker.update_market_price (backtest.py lines 276-296). -/
def MockPositionTracker.update_market_price (pos? : Option MockPosition)
    (price : ℚ) : Option MockPosition :=
  match pos? with
  | none => none
  | some p =>
    some { p with last_price := price,
                  unrealized_pnl := (price - p.average_price) * (p.quantity : ℚ) }

/-- backtest.py line 455: the equity sample, summing realized plus
unrealized pnl over the (single-instrument) positions dict. -/
def trackerEquity : Option MockPosition → ℚ
  | none => 0
  | some p => p.realized_pnl + p.unrealized_pnl

/-- One bar of BacktestEngine.run (backtest.py lines 427-487): mark positions
to the close, sample the equity and only then drain the new orders into
position updates.  Returns the post-bar position and the sampled equity. -/
def BacktestEngine.run_step (pos? : Option MockPosition) (close : ℚ)
    (new_orders : List (String × ℤ × ℚ)) : Option MockPosition × ℚ :=
  let pos? := MockPositionTracker.update_market_price pos? close
  let equity := trackerEquity pos?
  let pos? := new_orders.foldl
    (fun pos? o => some (MockPositionTracker.update_position pos? o.1 o.2.1 o.2.2)) pos?
  (pos?, equity)

/-- The bar loop of BacktestEngine.run (backtest.py lines 427-487): `i` is
the running bar index handed to the strategy. -/
def BacktestEngine.runAux (strat : ℕ → ℚ → List (String × ℤ × ℚ)) :
    ℕ → Option MockPosition → List ℚ → List ℚ × ℕ
  | _, _, [] => ([], 0)
  | i, pos?, close :: rest =>
    let orders := strat i close
    let s := BacktestEngine.run_step pos? close orders
    let r := BacktestEngine.runAux strat (i + 1) s.1 rest
    (s.2 :: r.1, orders.length + r.2)

/-- BacktestEngine.run (backtest.py lines 393-500), equity-curve part.
Returns the equity curve and the trade count (every drained order joins the
trades list, line 478). -/
def BacktestEngine.run (bars : List ℚ) (strat : ℕ → ℚ → List (String × ℤ × ℚ)) :
    List ℚ × ℕ :=
  BacktestEngine.runAux strat 0 none bars

/-- Pandas float scalar: the drawdown column of
`_calculate_performance_metrics` divides by a peak that can be 0, which in
pandas produces NaN (0/0) or a signed infinity (x/0, x ≠ 0). -/
inductive PFloat where
  | nan
  | pinf
  | ninf
  | val (q : ℚ)
deriving DecidableEq, Repr

/-- Pandas elementwise division. -/
def pdiv (x y : ℚ) : PFloat :=
  if y = 0 then (if 0 < x then PFloat.pinf else if x < 0 then PFloat.ninf else PFloat.nan)
  else PFloat.val (x / y)

/-- Multiplication by the positive constant 100 of backtest.py line 521. -/
def pscale (c : ℚ) (p : PFloat) : PFloat :=
  match p with
  | PFloat.nan => PFloat.nan
  | PFloat.pinf => PFloat.pinf
  | PFloat.ninf => PFloat.ninf
  | PFloat.val q => PFloat.val (c * q)

/-- Minimum of two non-NaN pandas floats. -/
def pfloatMin (a b : PFloat) : PFloat :=
  match a, b with
  | PFloat.ninf, _ => PFloat.ninf
  | _, PFloat.ninf => PFloat.ninf
  | PFloat.pinf, x => x
  | x, PFloat.pinf => x
  | PFloat.val p, PFloat.val q => PFloat.val (min p q)
  | PFloat.nan, x => x
  | x, PFloat.nan => x

/-- Pandas Series.min() with the default skipna=True: NaN entries are
ignored; an all-NaN (or empty) series has minimum NaN. -/
def seriesMin (l : List PFloat) : PFloat :=
  match l.filter (fun p => p ≠ PFloat.nan) with
  | [] => PFloat.nan
  | x :: xs => xs.foldl pfloatMin x

/-- Running maximum (`Series.cummax`, backtest.py line 520). -/
def cummaxAux (m : ℚ) : List ℚ → List ℚ
  | [] => []
  | x :: xs => max m x :: cummaxAux (max m x) xs

/-- `equity_df['equity'].cummax()`. -/
def cummax : List ℚ → List ℚ
  | [] => []
  | x :: xs => x :: cummaxAux x xs

/-- The fields of the results dict that the verified claims mention
(backtest.py lines 546-566).  The remaining entries (Sharpe, annualized
return, daily-return statistics) are derived from the daily-return series
alone and are independent of these fields. -/
structure BacktestResults where
  start_equity : ℚ
  end_equity : ℚ
  total_return_pct : ℚ
  num_trades : ℕ
  max_drawdown_pct : PFloat
deriving DecidableEq, Repr

/-- BacktestEngine._calculate_performance_metrics (backtest.py lines
502-568): an empty equity curve yields the empty dict (none); otherwise
total return is guarded against a zero start equity (line 514) and the max
drawdown is the pandas minimum of `(equity - peak) / peak * 100`. -/
def BacktestEngine.calculate_performance_metrics (num_trades : ℕ)
    (equity_curve : List ℚ) : Option BacktestResults :=
  match equity_curve with
  | [] => none
  | e0 :: rest =>
    let start_equity := e0
    let end_equity := (e0 :: rest).getLast (by simp)
    let total_return :=
      if start_equity ≠ 0 then ((end_equity - start_equity) / start_equity) * 100 else 0
    let peaks := cummax (e0 :: rest)
    let drawdowns := ((e0 :: rest).zip peaks).map (fun ep => pscale 100 (pdiv (ep.1 - ep.2) ep.2))
    let max_drawdown := seriesMin drawdowns
    some { start_equity := start_equity
           end_equity := end_equity
           total_return_pct := total_return
           num_trades := num_trades
           max_drawdown_pct := max_drawdown }

/-- The full pipeline of BacktestEngine.run: replay the bars, then derive the
performance metrics (backtest.py line 498). -/
def BacktestEngine.run_backtest (bars : List ℚ)
    (strat : ℕ → ℚ → List (String × ℤ × ℚ)) : Option BacktestResults :=
  let r := BacktestEngine.run bars strat
  BacktestEngine.calculate_performance_metrics r.2 r.1

/-! ## Claim-support definitions and concrete instances -/

/-- Apply a sequence of (status, filled_qty, fill_price) updates through
Order.update_status. -/
def applyFills (o : Order) (fills : List (OrderStatus × ℚ × ℚ)) : Order :=
  fills.foldl (fun o f => o.update_status f.1 (some f.2.1) (some f.2.2)) o

/-- Total filled quantity of a fill sequence. -/
def fillQty (fills : List (OrderStatus × ℚ × ℚ)) : ℚ :=
  (fills.map (fun f => f.2.1)).sum

/-- Total notional (quantity times price) of a fill sequence. -/
def fillNotional (fills : List (OrderStatus × ℚ × ℚ)) : ℚ :=
  (fills.map (fun f => f.2.1 * f.2.2)).sum

/-- The spec invariant on positions: unrealized pnl is (current − entry) ×
quantity for a long position, negated for a short one. -/
def pnlInvariant (p : Position) : Prop :=
  p.unrealized_pnl =
    if p.side = PositionSide.long then (p.current_price - p.entry_price) * p.quantity
    else -((p.current_price - p.entry_price) * p.quantity)

instance (p : Position) : Decidable (pnlInvariant p) := by
  unfold pnlInvariant; infer_instance

/-- Projection of a close result onto the mutated position. -/
def closeResultPos : Except String (Position × ℚ) → Option Position
  | Except.ok pr => some pr.1
  | Except.error _ => none

/-- Tracker invariant under a flat market at price c: no realized pnl, and
any open quantity was acquired at c. -/
def flatInv (c : ℚ) : Option MockPosition → Prop
  | none => True
  | some p => p.realized_pnl = 0 ∧ (p.quantity ≠ 0 → p.average_price = c)

/-- A plain instrument with unit lot size (and hence contract size 1, no
contract_size attribute existing on a non-derivative instrument). -/
def instU : Instrument := { symbol := "U", lot_size := 1 }

/-- A RiskCalculator left at its constructor defaults. -/
def rcD : RiskCalculator := {}

/-- A freshly created 5-unit market order (OrderFactory defaults: no fills,
no average price). -/
def ordFresh : Order :=
  OrderFactory.create_market_order "o1" instU OrderSide.buy 5 none

/-- An order with an earlier 3-unit fill at 100 recorded. -/
def ordPart : Order := ordFresh.update_status OrderStatus.accepted (some 3) (some 100)

/-- An open long position: 10 units entered at 100, marked at 110 (its
unrealized pnl satisfies the spec invariant). -/
def posC2 : Position :=
  { id := "U_0", instrument := instU, side := PositionSide.long, quantity := 10,
    entry_price := 100, current_price := 110, unrealized_pnl := 100, open_time := 0 }

/-- A broker oracle that accepts every order, reports every order FILLED and
serves balance 100000 and market price 100. -/
def exchW : Exchange :=
  { account_info := some (some 100000)
    place_order := fun _ => (true, "EX1")
    get_position := fun _ => none
    market_price := fun _ => some 100
    order_status := fun _ => some OrderStatus.filled
    cancel_order := fun _ => true }

/-- An active entry signal: buy at 100, stop 98. -/
def sigW : Signal :=
  { id := "s1", instrument := instU, signal_type := "entry", side := OrderSide.buy,
    entry_price := some 100, stop_loss := some 98, strategy_id := "strat1" }

/-- A running engine with no live orders or positions. -/
def stRunning : EngineState := { running := true }

/-- A resting 10-unit limit buy order carrying protective prices, as the
engine tracks it after placement (no fills recorded yet). -/
def ordC1 : Order :=
  { id := "o1", exchange_order_id := some "EX1", instrument := instU,
    side := OrderSide.buy, order_type := OrderType.limit, quantity := 10,
    price := some 100, status := OrderStatus.accepted,
    stop_loss_price := some 95, take_profit_price := some 110 }

/-- A running engine tracking ordC1 and no positions. -/
def stC1 : EngineState := { running := true, active_orders := [("o1", ordC1)] }

/-- The no-trade strategy. -/
def noTrades : ℕ → ℚ → List (String × ℤ × ℚ) := fun _ _ => []

/-- The pnl of the closed portion as Position.close computes it
(position.py lines 103-107). -/
def closePnl (p : Position) (exit_price q : ℚ) : ℚ :=
  if p.side = PositionSide.long then (exit_price - p.entry_price) * q
  else (p.entry_price - exit_price) * q

/-- posC2 after a partial close of 5 units at 110. -/
def posC2closed : Position :=
  { posC2 with realized_pnl := 50, quantity := 5, status := PositionStatus.partClosed }

/-- The spec-side formulation of the shrink-do-not-block sizing policy: the
risk amount multiplied by (ratio / minimum), then divided by the per-unit
risk and the contract size, rounded to the lot size and clamped to at least
one lot.  Compared against calculate_position_size in the C8 theorem. -/
def scaledPositionSize (rc : RiskCalculator) (balance entry stop tp : ℚ)
    (inst : Instrument) (rp : Option ℚ) : ℚ :=
  let risk_amount := rc.risk_amount balance rp * (risk_reward_ratio entry stop tp / rc.min_risk_reward_ratio)
  let position_size := risk_amount / per_unit_risk entry stop / inst.contract_size
  let position_size := (pyRound (position_size / inst.lot_size) : ℚ) * inst.lot_size
  if position_size < inst.lot_size then inst.lot_size else position_size

/-! ## Theorems -/

/-- calculate_unrealized_pnl establishes the pnl invariant. -/
theorem pnl_inv_calculate (p : Position) : pnlInvariant p.calculate_unrealized_pnl := by
  unfold Position.calculate_unrealized_pnl pnlInvariant
  split_ifs with h
  · simp [h]
  · simp [h]
    ring

/-- Effect of update_status on the fill-tracking fields for a single
positive fill. -/
theorem update_status_fill (o : Order) (s : OrderStatus) (q : ℚ) (fp : Option ℚ)
    (hq : 0 < q) (hf : 0 ≤ o.filled_quantity) :
    (o.update_status s (some q) fp).filled_quantity = o.filled_quantity + q ∧
    (o.update_status s (some q) fp).quantity = o.quantity ∧
    (o.update_status s (some q) fp).average_fill_price =
      (match fp with
       | none => o.average_fill_price
       | some p =>
         match o.average_fill_price with
         | none => some p
         | some avg => some ((o.filled_quantity * avg + q * p) / (o.filled_quantity + q))) ∧
    (o.update_status s (some q) fp).status =
      (if o.filled_quantity + q ≥ o.quantity then OrderStatus.filled
       else OrderStatus.partFilled) := by
  have hq' : o.filled_quantity + q > 0 := by linarith
  cases fp with
  | none =>
    simp only [Order.update_status, hq, if_pos, hq']
    split_ifs with h1
    · exact ⟨rfl, rfl, rfl, rfl⟩
    · exact ⟨rfl, rfl, rfl, rfl⟩
  | some p =>
    cases havg : o.average_fill_price with
    | none =>
      simp only [Order.update_status, hq, if_pos, havg, hq']
      split_ifs with h1
      · exact ⟨rfl, rfl, rfl, rfl⟩
      · exact ⟨rfl, rfl, rfl, rfl⟩
    | some avg =>
      simp only [Order.update_status, hq, if_pos, havg, hq']
      split_ifs with h1
      · exact ⟨rfl, rfl, rfl, rfl⟩
      · exact ⟨rfl, rfl, rfl, rfl⟩

/-- Running-weighted-mean invariant of applyFills, starting from an order
that already records a positive filled quantity with average A. -/
theorem applyFills_spec (fills : List (OrderStatus × ℚ × ℚ)) (o : Order) (A : ℚ)
    (hpos : ∀ f ∈ fills, 0 < f.2.1) (hf : 0 < o.filled_quantity)
    (havg : o.average_fill_price = some A) :
    (applyFills o fills).filled_quantity = o.filled_quantity + fillQty fills ∧
    (applyFills o fills).quantity = o.quantity ∧
    (applyFills o fills).average_fill_price =
      some ((o.filled_quantity * A + fillNotional fills) / (o.filled_quantity + fillQty fills)) ∧
    (applyFills o fills).status =
      (if fills = [] then o.status
       else if o.filled_quantity + fillQty fills ≥ o.quantity then OrderStatus.filled
       else OrderStatus.partFilled) := by
  induction fills generalizing o A with
  | nil =>
    refine ⟨by simp [applyFills, fillQty], by simp [applyFills], ?_, by simp [applyFills]⟩
    simp only [applyFills, List.foldl_nil, fillQty, fillNotional, List.map_nil, List.sum_nil,
      add_zero, havg, Option.some.injEq]
    rw [mul_div_cancel_left₀ _ (ne_of_gt hf)]
  | cons f rest ih =>
    obtain ⟨s, q, p⟩ := f
    have hq : 0 < q := hpos (s, q, p) (List.mem_cons_self _ _)
    have hrest : ∀ g ∈ rest, 0 < g.2.1 := fun g hg => hpos g (List.mem_cons_of_mem _ hg)
    have h1 := update_status_fill o s q (some p) hq (le_of_lt hf)
    have hsum : o.filled_quantity + q ≠ 0 := by positivity
    have havg1 : (o.update_status s (some q) (some p)).average_fill_price =
        some ((o.filled_quantity * A + q * p) / (o.filled_quantity + q)) := by
      rw [h1.2.2.1, havg]
    have hf1 : 0 < (o.update_status s (some q) (some p)).filled_quantity := by
      rw [h1.1]; positivity
    have happ : applyFills o ((s, q, p) :: rest) =
        applyFills (o.update_status s (some q) (some p)) rest := by
      simp [applyFills]
    have hmain := ih (o.update_status s (some q) (some p))
      ((o.filled_quantity * A + q * p) / (o.filled_quantity + q)) hrest hf1 havg1
    have hqty : fillQty ((s, q, p) :: rest) = q + fillQty rest := by
      simp [fillQty]
    have hnot : fillNotional ((s, q, p) :: rest) = q * p + fillNotional rest := by
      simp [fillNotional]
    refine ⟨?_, ?_, ?_, ?_⟩
    · rw [happ, hmain.1, h1.1, hqty]; ring
    · rw [happ, hmain.2.1, h1.2.1]
    · rw [happ, hmain.2.2.1, h1.1, hqty, hnot, mul_div_cancel₀ _ hsum]
      simp only [Option.some.injEq]
      ring
    · rw [happ, hmain.2.2.2, h1.1, h1.2.1, h1.2.2.2, hqty]
      rcases eq_or_ne rest [] with hr | hr
      · simp [hr, fillQty]
      · simp only [hr, if_neg, List.cons_ne_self]
        have hassoc : o.filled_quantity + q + fillQty rest
            = o.filled_quantity + (q + fillQty rest) := by ring
        rw [hassoc]
        simp [hr]

/-- C5: starting from a freshly created order (no fills, no average), any
nonempty sequence of positive priced fills applied through update_status
leaves average_fill_price equal to the running weighted mean of the fills
(total notional over total quantity) and a status of FILLED exactly when the
accumulated filled quantity reaches the order quantity, else
PARTIALLY_FILLED. -/
theorem C5_running_weighted_mean (o : Order) (fills : List (OrderStatus × ℚ × ℚ))
    (h0 : o.filled_quantity = 0) (h1 : o.average_fill_price = none)
    (hne : fills ≠ []) (hpos : ∀ f ∈ fills, 0 < f.2.1) :
    (applyFills o fills).filled_quantity = fillQty fills ∧
    (applyFills o fills).average_fill_price = some (fillNotional fills / fillQty fills) ∧
    (applyFills o fills).status =
      (if fillQty fills ≥ o.quantity then OrderStatus.filled else OrderStatus.partFilled) := by
  cases fills with
  | nil => exact absurd rfl hne
  | cons f rest =>
    obtain ⟨s, q, p⟩ := f
    have hq : 0 < q := hpos (s, q, p) (List.mem_cons_self _ _)
    have hrest : ∀ g ∈ rest, 0 < g.2.1 := fun g hg => hpos g (List.mem_cons_of_mem _ hg)
    have hstep := update_status_fill o s q (some p) hq (by rw [h0])
    have ha : (o.update_status s (some q) (some p)).average_fill_price = some p := by
      rw [hstep.2.2.1, h1]
    have hfq : (o.update_status s (some q) (some p)).filled_quantity = q := by
      rw [hstep.1, h0, zero_add]
    have hf1 : 0 < (o.update_status s (some q) (some p)).filled_quantity := by
      rw [hfq]; exact hq
    have happ : applyFills o ((s, q, p) :: rest) =
        applyFills (o.update_status s (some q) (some p)) rest := by
      simp [applyFills]
    have hmain := applyFills_spec rest (o.update_status s (some q) (some p)) p hrest hf1 ha
    have hqty : fillQty ((s, q, p) :: rest) = q + fillQty rest := by simp [fillQty]
    have hnot : fillNotional ((s, q, p) :: rest) = q * p + fillNotional rest := by
      simp [fillNotional]
    refine ⟨?_, ?_, ?_⟩
    · rw [happ, hmain.1, hfq, hqty]
    · rw [happ, hmain.2.2.1, hfq, hqty, hnot]
    · rw [happ, hmain.2.2.2, hfq, hstep.2.1, hstep.2.2.2, h0, zero_add, hqty]
      rcases eq_or_ne rest [] with hr | hr
      · simp [hr, fillQty]
      · simp [hr]

/-- C5 witness: fills (3 at 100) then (2 at 105) on a fresh 5-unit order
average to (3·100 + 2·105)/5 = 102 and fill the order. -/
theorem C5_running_weighted_mean_witness :
    (applyFills ordFresh [(OrderStatus.accepted, 3, 100), (OrderStatus.accepted, 2, 105)]).average_fill_price = some 102 ∧
    (applyFills ordFresh [(OrderStatus.accepted, 3, 100), (OrderStatus.accepted, 2, 105)]).status = OrderStatus.filled := by
  have h := C5_running_weighted_mean ordFresh
    [(OrderStatus.accepted, 3, 100), (OrderStatus.accepted, 2, 105)]
    rfl rfl (by simp) (by norm_num)
  refine ⟨?_, ?_⟩
  · rw [h.2.1]; norm_num [fillNotional, fillQty]
  · rw [h.2.2]
    norm_num [fillQty, ordFresh, OrderFactory.create_market_order]

/-- C9: a call to update_status with a positive fill quantity ends with a
status derived solely from quantities, FILLED when the accumulated filled
quantity reaches the order quantity and PARTIALLY_FILLED otherwise,
overriding the new_status argument. -/
theorem C9_status_from_quantities (o : Order) (new_status : OrderStatus) (q : ℚ)
    (fp : Option ℚ) (hq : 0 < q) (hf : 0 ≤ o.filled_quantity) :
    (o.update_status new_status (some q) fp).status =
      (if o.filled_quantity + q ≥ o.quantity then OrderStatus.filled
       else OrderStatus.partFilled) :=
  (update_status_fill o new_status q fp hq hf).2.2.2

/-- C9 witness: passing CANCELLED together with the completing fill leaves
the order FILLED, not CANCELLED. -/
theorem C9_status_from_quantities_witness :
    (ordPart.update_status OrderStatus.cancelled (some 2) (some 105)).status = OrderStatus.filled := by
  rw [C9_status_from_quantities ordPart OrderStatus.cancelled 2 (some 105) (by norm_num)
    (by norm_num [ordPart, ordFresh, OrderFactory.create_market_order, Order.update_status])]
  norm_num [ordPart, ordFresh, OrderFactory.create_market_order, Order.update_status]

/-- C6: Position.close with a quantity above the current position size
raises (and, as the raise precedes every field write in the source, the
position is untouched); closing exactly the full remaining quantity yields
CLOSED with close_time stamped to now; closing a strictly smaller positive
quantity yields PARTIALLY_CLOSED with close_time untouched; every close adds
(exit − entry) × qty (negated for short) to realized_pnl. -/
theorem C6_close_spec (p : Position) (exit_price q : ℚ) (now : ℕ) :
    (p.quantity < q →
      p.close exit_price (some q) now = Except.error "Cannot close more than the position size") ∧
    (q = p.quantity →
      p.close exit_price (some q) now = Except.ok
        ({ p with
            realized_pnl := p.realized_pnl + closePnl p exit_price q
            quantity := p.quantity - q
            status := PositionStatus.closed
            close_time := some now },
         closePnl p exit_price q)) ∧
    (0 < q → q < p.quantity →
      p.close exit_price (some q) now = Except.ok
        ({ p with
            realized_pnl := p.realized_pnl + closePnl p exit_price q
            quantity := p.quantity - q
            status := PositionStatus.partClosed },
         closePnl p exit_price q)) := by
  refine ⟨?_, ?_, ?_⟩
  · intro h
    simp only [Position.close, Option.getD_some]
    rw [if_pos h]
  · intro h
    simp only [Position.close, Option.getD_some, closePnl]
    rw [if_neg (by rw [h]; exact lt_irrefl _), if_pos (by rw [h]; simp)]
  · intro h0 h
    simp only [Position.close, Option.getD_some, closePnl]
    rw [if_neg (not_lt_of_ge (le_of_lt h)), if_neg (by simp only [not_le, sub_pos]; linarith)]

/-- C6 witness: partially closing 4 of 10 units at 110 books the pnl, drops
to PARTIALLY_CLOSED and leaves close_time unset. -/
theorem C6_close_spec_witness :
    posC2.close 110 (some 4) 7 = Except.ok
      ({ posC2 with
          realized_pnl := posC2.realized_pnl + closePnl posC2 110 4
          quantity := posC2.quantity - 4
          status := PositionStatus.partClosed },
       closePnl posC2 110 4) :=
  (C6_close_spec posC2 110 4 7).2.2 (by norm_num) (by norm_num [posC2])

/-- C2 counterexample: posC2 (long 10 at 100 marked 110) satisfies the pnl
invariant, but after close(110, 5) the stored unrealized_pnl is still 100
while the invariant demands (110 − 100) × 5 = 50: the invariant fails after
the public operation close, contrary to the claim. -/
theorem C2_counterexample :
    pnlInvariant posC2 ∧
    (closeResultPos (posC2.close 110 (some 5) 7)).map Position.unrealized_pnl = some 100 ∧
    (closeResultPos (posC2.close 110 (some 5) 7)).map
      (fun p => if p.side = PositionSide.long then (p.current_price - p.entry_price) * p.quantity
                else -((p.current_price - p.entry_price) * p.quantity)) = some 50 ∧
    (100 : ℚ) ≠ 50 := by
  refine ⟨by norm_num [pnlInvariant, posC2], ?_, ?_, by norm_num⟩
  · norm_num [closeResultPos, Position.close, posC2]
  · norm_num [closeResultPos, Position.close, posC2]

/-- C2 amended: the pnl invariant holds after creation through the factory,
after update_price and after calculate_unrealized_pnl; close however never
recomputes unrealized_pnl (it leaves the field exactly as it was), so the
invariant can fail after a close. -/
theorem C2_pnl_invariant_amended :
    (∀ (inst : Instrument) (side : OrderSide) (qty : ℚ) (ep? cp? : Option ℚ)
        (sid : Option String) (sl tp : Option ℚ) (ids : List String) (now : ℕ) (pos : Position),
        PositionFactory.create_position inst side qty ep? cp? sid sl tp ids now = Except.ok pos →
        pnlInvariant pos) ∧
    (∀ (p : Position) (cp : ℚ), pnlInvariant (p.update_price cp)) ∧
    (∀ p : Position, pnlInvariant p.calculate_unrealized_pnl) ∧
    (∀ (p : Position) (exit_price q : ℚ) (now : ℕ) (p2 : Position) (pnl : ℚ),
        p.close exit_price (some q) now = Except.ok (p2, pnl) →
        p2.unrealized_pnl = p.unrealized_pnl) := by
  refine ⟨?_, ?_, pnl_inv_calculate, ?_⟩
  · intro inst side qty ep? cp? sid sl tp ids now pos h
    simp only [PositionFactory.create_position] at h
    cases ep? with
    | none => cases cp? <;> simp at h
    | some ep =>
      cases cp? with
      | none =>
        simp at h
        rw [← h]
        exact pnl_inv_calculate _
      | some cp =>
        simp at h
        rw [← h]
        exact pnl_inv_calculate _
  · intro p cp
    exact pnl_inv_calculate _
  · intro p exit_price q now p2 pnl h
    simp only [Position.close, Option.getD_some] at h
    split at h
    · simp at h
    · split at h
      · simp only [Except.ok.injEq, Prod.mk.injEq] at h
        rw [← h.1]
      · simp only [Except.ok.injEq, Prod.mk.injEq] at h
        rw [← h.1]

/-- C2 amended witness: the invariant holds after update_price on a concrete
position, and a concrete close leaves unrealized_pnl unchanged. -/
theorem C2_pnl_invariant_amended_witness :
    pnlInvariant (posC2.update_price 120) ∧ posC2closed.unrealized_pnl = posC2.unrealized_pnl :=
  ⟨C2_pnl_invariant_amended.2.1 posC2 120,
   C2_pnl_invariant_amended.2.2.2 posC2 110 5 7 posC2closed 50
     (by norm_num [Position.close, posC2, posC2closed])⟩

/-- C7: calculate_position_size returns 0 whenever the per-unit risk
|entry − stop| is zero; and on balance 100000, entry 100, stop 98 with the
default calculator (1% risk) and unit lot size, the risk amount is 1000, the
per-unit risk is 2, and the returned size is 500 lots. -/
theorem C7_position_sizing :
    (∀ (rc : RiskCalculator) (balance entry stop : ℚ) (inst : Instrument) (rp tp : Option ℚ),
        per_unit_risk entry stop = 0 →
        rc.calculate_position_size balance entry stop inst rp tp = 0) ∧
    rcD.risk_amount 100000 none = 1000 ∧
    per_unit_risk 100 98 = 2 ∧
    rcD.calculate_position_size 100000 100 98 instU none none = 500 := by
  refine ⟨?_, by norm_num [RiskCalculator.risk_amount, rcD],
    by norm_num [per_unit_risk], ?_⟩
  · intro rc balance entry stop inst rp tp h
    simp only [RiskCalculator.calculate_position_size, h]
    rw [if_pos le_rfl]
  · norm_num [RiskCalculator.calculate_position_size, RiskCalculator.risk_amount,
      per_unit_risk, rcD, instU, pyRound]

/-- C7 witness: entry equal to stop yields size 0. -/
theorem C7_position_sizing_witness :
    per_unit_risk 100 100 = 0 ∧
    rcD.calculate_position_size 5000 100 100 instU none none = 0 :=
  ⟨by norm_num [per_unit_risk],
   C7_position_sizing.1 rcD 5000 100 100 instU none none (by norm_num [per_unit_risk])⟩

/-- C8: with a take profit whose risk/reward ratio falls below the
configured minimum, the returned size equals the computation in which the
risk amount is multiplied by (ratio / minimum) — the proportional shrink —
and the call still returns a strictly positive size instead of rejecting
with 0. -/
theorem C8_shrink_not_block (rc : RiskCalculator) (balance entry stop tp : ℚ)
    (inst : Instrument) (rp : Option ℚ)
    (hp : 0 < per_unit_risk entry stop)
    (hr : risk_reward_ratio entry stop tp < rc.min_risk_reward_ratio)
    (hl : 0 < inst.lot_size) :
    rc.calculate_position_size balance entry stop inst rp (some tp) =
      scaledPositionSize rc balance entry stop tp inst rp ∧
    0 < rc.calculate_position_size balance entry stop inst rp (some tp) := by
  have heq : rc.calculate_position_size balance entry stop inst rp (some tp) =
      scaledPositionSize rc balance entry stop tp inst rp := by
    simp only [RiskCalculator.calculate_position_size, scaledPositionSize]
    rw [if_neg (not_le_of_gt hp), if_pos hr]
  refine ⟨heq, ?_⟩
  rw [heq]
  simp only [scaledPositionSize]
  split_ifs with h
  · exact hl
  · linarith [not_lt.mp h]

/-- C8 witness: entry 100, stop 98, take profit 101 gives ratio 1/2 below
the default minimum 3/2, yet the returned size is positive. -/
theorem C8_shrink_not_block_witness :
    0 < per_unit_risk 100 98 ∧
    risk_reward_ratio 100 98 101 < rcD.min_risk_reward_ratio ∧
    0 < rcD.calculate_position_size 100000 100 98 instU none (some 101) :=
  ⟨by norm_num [per_unit_risk],
   by norm_num [risk_reward_ratio, per_unit_risk, rcD],
   (C8_shrink_not_block rcD 100000 100 98 101 instU none
     (by norm_num [per_unit_risk])
     (by norm_num [risk_reward_ratio, per_unit_risk, rcD])
     (by norm_num [instU])).2⟩

/-- C10: with a positive lot size the returned size is 0 exactly when the
per-unit risk |entry − stop| is ≤ 0; otherwise it is at least one lot, even
on a zero account balance, so 0 uniquely signals invalid stop placement. -/
theorem C10_zero_iff_invalid_stop (rc : RiskCalculator) (balance entry stop : ℚ)
    (inst : Instrument) (rp tp : Option ℚ) (hl : 0 < inst.lot_size) :
    (rc.calculate_position_size balance entry stop inst rp tp = 0 ↔
      per_unit_risk entry stop ≤ 0) ∧
    (0 < per_unit_risk entry stop →
      inst.lot_size ≤ rc.calculate_position_size balance entry stop inst rp tp) := by
  by_cases hp : per_unit_risk entry stop ≤ 0
  · refine ⟨⟨fun _ => hp, fun _ => ?_⟩, fun h => absurd hp (not_le_of_gt h)⟩
    simp only [RiskCalculator.calculate_position_size]
    rw [if_pos hp]
  · push_neg at hp
    have hres : inst.lot_size ≤ rc.calculate_position_size balance entry stop inst rp tp := by
      simp only [RiskCalculator.calculate_position_size]
      rw [if_neg (not_le_of_gt hp)]
      split_ifs with h
      · exact le_rfl
      · exact le_of_not_lt h
    refine ⟨⟨fun h0 => ?_, fun hc => absurd hp (not_lt_of_ge hc)⟩, fun _ => hres⟩
    rw [h0] at hres
    linarith

/-- C10 witness: a zero account balance still returns one lot, not 0. -/
theorem C10_zero_iff_invalid_stop_witness :
    instU.lot_size ≤ rcD.calculate_position_size 0 100 98 instU none none :=
  (C10_zero_iff_invalid_stop rcD 0 100 98 instU none none (by norm_num [instU])).2
    (by norm_num [per_unit_risk])

theorem update_position_flat (c : ℚ) (pos? : Option MockPosition) (t : String) (q : ℤ)
    (hq : 0 ≤ q) (hinv : flatInv c pos?) :
    flatInv c (some (MockPositionTracker.update_position pos? t q c)) := by
  cases pos? with
  | none =>
    simp only [MockPositionTracker.update_position, flatInv, mkMockPosition]
    split_ifs <;> constructor <;>
      first
      | trivial
      | (exfalso; omega)
      | (push_cast; ring1)
      | (intro hne; first | trivial | (exfalso; omega))
  | some p =>
    obtain ⟨hr, havg⟩ := hinv
    by_cases hq0 : p.quantity = 0
    · simp only [MockPositionTracker.update_position, hq0, hr, flatInv, mkMockPosition]
      split_ifs <;> constructor <;>
        first
        | trivial
        | (exfalso; omega)
        | (push_cast; ring1)
        | (intro hne; first | trivial | (exfalso; omega))
    · have hc := havg hq0
      simp only [MockPositionTracker.update_position, hr, hc, flatInv, mkMockPosition]
      split_ifs <;> constructor <;>
        first
        | trivial
        | (exfalso; omega)
        | (push_cast; ring1)
        | (intro hne; first | trivial | (exfalso; omega))
        | (intro hne
           have h2 : ((p.quantity : ℚ) + q) ≠ 0 := by exact_mod_cast hne
           field_simp
           try ring1)
        | (intro hne
           dsimp only at hne ⊢
           rw [abs_of_neg (show p.quantity < 0 by omega),
             abs_of_neg (show p.quantity - q < 0 by omega),
             div_eq_iff (show ((-(p.quantity - q) : ℤ) : ℚ) ≠ 0 from Int.cast_ne_zero.mpr (by omega))]
           push_cast
           ring1)

theorem flat_orders_fold (c : ℚ) (orders : List (String × ℤ × ℚ))
    (h : ∀ o ∈ orders, o.2.2 = c ∧ 0 ≤ o.2.1) (pos? : Option MockPosition)
    (hinv : flatInv c pos?) :
    flatInv c (orders.foldl
      (fun pos? o => some (MockPositionTracker.update_position pos? o.1 o.2.1 o.2.2)) pos?) := by
  induction orders generalizing pos? with
  | nil => exact hinv
  | cons o rest ih =>
    simp only [List.foldl_cons]
    refine ih (fun g hg => h g (List.mem_cons_of_mem _ hg)) _ ?_
    have ho := h o (List.mem_cons_self _ _)
    rw [ho.1]
    exact update_position_flat c pos? o.1 o.2.1 ho.2 hinv

theorem flat_market_equity (c : ℚ) (pos? : Option MockPosition) (hinv : flatInv c pos?) :
    trackerEquity (MockPositionTracker.update_market_price pos? c) = 0 ∧
    flatInv c (MockPositionTracker.update_market_price pos? c) := by
  cases pos? with
  | none => exact ⟨rfl, trivial⟩
  | some p =>
    obtain ⟨hr, havg⟩ := hinv
    by_cases hq0 : p.quantity = 0
    · refine ⟨?_, ⟨hr, havg⟩⟩
      simp [MockPositionTracker.update_market_price, trackerEquity, hr, hq0]
    · have hc := havg hq0
      refine ⟨?_, ⟨hr, havg⟩⟩
      simp [MockPositionTracker.update_market_price, trackerEquity, hr, hc]

theorem runAux_flat (c : ℚ) (strat : ℕ → ℚ → List (String × ℤ × ℚ))
    (hs : ∀ i cl o, o ∈ strat i cl → o.2.2 = c ∧ 0 ≤ o.2.1) :
    ∀ (bars : List ℚ), (∀ x ∈ bars, x = c) → ∀ (i : ℕ) (pos? : Option MockPosition),
    flatInv c pos? →
    (BacktestEngine.runAux strat i pos? bars).1 = List.replicate bars.length 0 := by
  intro bars
  induction bars with
  | nil => intro _ i pos? _; rfl
  | cons b rest ih =>
    intro hb i pos? hinv
    have hbc : b = c := hb b (List.mem_cons_self _ _)
    subst hbc
    have hm := flat_market_equity b pos? hinv
    have hfold := flat_orders_fold b (strat i b) (fun o ho => hs i b o ho) _ hm.2
    simp only [BacktestEngine.runAux, BacktestEngine.run_step, List.length_cons,
      List.replicate_succ, List.cons.injEq]
    exact ⟨hm.1, ih (fun x hx => hb x (List.mem_cons_of_mem _ hx)) (i + 1) _ hfold⟩


theorem cummaxAux_zero (m : ℕ) : cummaxAux 0 (List.replicate m (0:ℚ)) = List.replicate m 0 := by
  induction m with
  | zero => rfl
  | succ k ih => simp [List.replicate_succ, cummaxAux, ih]

theorem zip_replicate_self {α : Type} (x y : α) (m : ℕ) :
    (List.replicate m x).zip (List.replicate m y) = List.replicate m (x, y) := by
  induction m with
  | zero => rfl
  | succ k ih => simp [List.replicate_succ, ih]

theorem filter_not_nan_replicate (m : ℕ) :
    (List.replicate m PFloat.nan).filter (fun p => p ≠ PFloat.nan) = [] := by
  induction m with
  | zero => rfl
  | succ k ih => simp [List.replicate_succ, ih]

theorem getLast_zeros (l : List ℚ) (hne : l ≠ []) (h : ∀ x ∈ l, x = 0) :
    l.getLast hne = 0 :=
  h _ (List.getLast_mem hne)

theorem metrics_flat (n : ℕ) (hn : 0 < n) (nt : ℕ) :
    BacktestEngine.calculate_performance_metrics nt (List.replicate n (0:ℚ)) =
      some { start_equity := 0, end_equity := 0, total_return_pct := 0, num_trades := nt,
             max_drawdown_pct := PFloat.nan } := by
  obtain ⟨m, rfl⟩ : ∃ m, n = m + 1 := ⟨n - 1, by omega⟩
  rw [List.replicate_succ]
  simp only [BacktestEngine.calculate_performance_metrics]
  have hlast : (0 :: List.replicate m (0:ℚ)).getLast (by simp) = 0 := by
    apply getLast_zeros
    intro x hx
    rcases List.mem_cons.mp hx with h | h
    · exact h
    · exact List.eq_of_mem_replicate h
  have hpeaks : cummax (0 :: List.replicate m (0:ℚ)) = List.replicate (m+1) 0 := by
    simp [cummax, cummaxAux_zero, List.replicate_succ]
  have hdraw : ((0 :: List.replicate m (0:ℚ)).zip (cummax (0 :: List.replicate m (0:ℚ)))).map
      (fun ep => pscale 100 (pdiv (ep.1 - ep.2) ep.2)) = List.replicate (m+1) PFloat.nan := by
    rw [hpeaks]
    rw [show (0 :: List.replicate m (0:ℚ)) = List.replicate (m+1) (0:ℚ) from (List.replicate_succ 0 m).symm]
    rw [zip_replicate_self]
    simp [List.map_replicate, pdiv, pscale]
  rw [hdraw, hlast]
  have hmin : seriesMin (List.replicate (m+1) PFloat.nan) = PFloat.nan := by
    unfold seriesMin
    rw [filter_not_nan_replicate]
  rw [hmin]
  simp

/-- C3 counterexample: a three-bar flat series with no trades yields
total_return_pct = 0 but max_drawdown_pct = NaN (every drawdown entry is the
pandas 0/0), so the claimed max_drawdown_pct == 0 is false on the code. -/
theorem C3_counterexample :
    BacktestEngine.run_backtest [100, 100, 100] noTrades =
      some { start_equity := 0, end_equity := 0, total_return_pct := 0, num_trades := 0,
             max_drawdown_pct := PFloat.nan } ∧
    PFloat.nan ≠ PFloat.val 0 := by
  constructor
  · norm_num [BacktestEngine.run_backtest, BacktestEngine.run, BacktestEngine.runAux,
      BacktestEngine.run_step, MockPositionTracker.update_market_price, noTrades, trackerEquity,
      BacktestEngine.calculate_performance_metrics, cummax, cummaxAux, pdiv, pscale, seriesMin,
      List.getLast]
  · simp

/-- C3 amended: over a flat price series of n ≥ 1 bars at price c, with a
strategy whose orders all carry nonnegative quantities and execute at c, the
backtest results have total_return_pct = 0, but max_drawdown_pct is the
pandas NaN (the drawdown column divides 0 by a 0 peak at every bar), not 0. -/
theorem C3_flat_series (n : ℕ) (hn : 0 < n) (c : ℚ)
    (strat : ℕ → ℚ → List (String × ℤ × ℚ))
    (hs : ∀ i cl o, o ∈ strat i cl → o.2.2 = c ∧ 0 ≤ o.2.1) :
    ∃ res, BacktestEngine.run_backtest (List.replicate n c) strat = some res ∧
      res.total_return_pct = 0 ∧ res.max_drawdown_pct = PFloat.nan := by
  have hcurve : (BacktestEngine.runAux strat 0 none (List.replicate n c)).1 =
      List.replicate n 0 := by
    have := runAux_flat c strat hs (List.replicate n c)
      (fun x hx => List.eq_of_mem_replicate hx) 0 none trivial
    simpa using this
  refine ⟨{ start_equity := 0, end_equity := 0, total_return_pct := 0,
            num_trades := (BacktestEngine.runAux strat 0 none (List.replicate n c)).2,
            max_drawdown_pct := PFloat.nan }, ?_, rfl, rfl⟩
  simp only [BacktestEngine.run_backtest, BacktestEngine.run]
  rw [hcurve]
  exact metrics_flat n hn _

/-- C3 amended witness: the three-bar flat series at 100 with the no-trade
strategy. -/
theorem C3_flat_series_witness :
    ∃ res, BacktestEngine.run_backtest (List.replicate 3 (100:ℚ)) noTrades = some res ∧
      res.total_return_pct = 0 ∧ res.max_drawdown_pct = PFloat.nan :=
  C3_flat_series 3 (by norm_num) 100 noTrades (by simp [noTrades])

/-- Signal.execute never changes the signal id. -/
theorem Signal.execute_id (s : Signal) (ids : List String) (pid : Option String) :
    (s.execute ids pid).id = s.id := by
  unfold Signal.execute
  cases pid with
  | none => rfl
  | some p => dsimp only; split_ifs <;> rfl

/-- Signal.is_active never changes the signal id (lazy expiry only touches
the status). -/
theorem Signal.is_active_id (s : Signal) (now : ℕ) : ((s.is_active now).2).id = s.id := by
  unfold Signal.is_active
  split_ifs with h
  · rfl
  · cases s.expiration with
    | none => rfl
    | some e => dsimp only; split_ifs <;> rfl

/-- Entry processing never changes the signal id. -/
theorem process_entry_signal_id (rc : RiskCalculator) (st : EngineState) (ex : Exchange)
    (s : Signal) : (ExecutionEngine.process_entry_signal rc st ex s).2.2.1.id = s.id := by
  unfold ExecutionEngine.process_entry_signal
  repeat' split
  all_goals try (cases s.entry_price <;> dsimp only)
  all_goals try (repeat' split)
  all_goals simp [Signal.execute_id, apply_ite]

/-- Exit processing never changes the signal id. -/
theorem process_exit_signal_id (st : EngineState) (ex : Exchange) (s : Signal) :
    (ExecutionEngine.process_exit_signal st ex s).2.2.1.id = s.id := by
  unfold ExecutionEngine.process_exit_signal
  repeat' split
  all_goals simp [Signal.execute_id, apply_ite]

/-- A signal whose id is already in the processed set is rejected: false
return, engine state untouched, nothing submitted to the exchange.  The
processed-set check fires before any order placement. -/
theorem process_signal_already (rc : RiskCalculator) (st : EngineState) (ex : Exchange)
    (sig : Signal) (now : ℕ) (h : sig.id ∈ st.processed_signals) :
    (ExecutionEngine.process_signal rc st ex sig now).1 = false ∧
    (ExecutionEngine.process_signal rc st ex sig now).2.1 = st ∧
    (ExecutionEngine.process_signal rc st ex sig now).2.2.2 = [] := by
  have hid : ((sig.is_active now).2).id = sig.id := Signal.is_active_id sig now
  unfold ExecutionEngine.process_signal
  split_ifs <;> simp_all

/-- A successful process_signal call records the signal id in the processed
set (and only success does). -/
theorem process_signal_true_marks (rc : RiskCalculator) (st : EngineState) (ex : Exchange)
    (sig : Signal) (now : ℕ)
    (h : (ExecutionEngine.process_signal rc st ex sig now).1 = true) :
    sig.id ∈ (ExecutionEngine.process_signal rc st ex sig now).2.1.processed_signals := by
  have hid : ((sig.is_active now).2).id = sig.id := Signal.is_active_id sig now
  unfold ExecutionEngine.process_signal at h ⊢
  by_cases h1 : st.running
  swap
  · simp [h1] at h
  · simp only [h1, not_true, if_false, ite_false, Bool.not_true] at h ⊢
    by_cases h2 : (sig.is_active now).1
    swap
    · simp [h2] at h
    · simp only [h2, not_true, Bool.not_true, if_false, ite_false] at h ⊢
      by_cases h3 : (sig.is_active now).2.id ∈ st.processed_signals
      · simp [h3] at h
      · simp only [h3, if_false, ite_false] at h ⊢
        by_cases h4 : st.active_orders.length ≥ st.max_concurrent_orders
        · simp [h4] at h
        · simp only [h4, if_false, ite_false] at h ⊢
          have hrid : (if (sig.is_active now).2.signal_type = "entry" then
                ExecutionEngine.process_entry_signal rc st ex (sig.is_active now).2
              else
                if (sig.is_active now).2.signal_type = "exit" then
                  ExecutionEngine.process_exit_signal st ex (sig.is_active now).2
                else (false, st, (sig.is_active now).2, [])).2.2.1.id = sig.id := by
            split_ifs with ht1 ht2
            · rw [process_entry_signal_id]; exact hid
            · rw [process_exit_signal_id]; exact hid
            · exact hid
          rw [if_pos h]
          dsimp only
          rw [hrid]
          exact List.mem_append_right _ (by simp)

/-- C4: once a first process_signal call has processed a signal (returned
true), any later call with a signal carrying the same id returns false,
leaves the engine state untouched and submits no order to the exchange: the
processed-set membership is checked before any placement and the id was
added on the successful call, so at most one placement results from one
signal id. -/
theorem C4_process_signal_at_most_once (rc : RiskCalculator) (st : EngineState)
    (ex ex2 : Exchange) (sig : Signal) (now now2 : ℕ) (sig2 : Signal)
    (h1 : (ExecutionEngine.process_signal rc st ex sig now).1 = true)
    (hid : sig2.id = sig.id) :
    (ExecutionEngine.process_signal rc
        (ExecutionEngine.process_signal rc st ex sig now).2.1 ex2 sig2 now2).1 = false ∧
    (ExecutionEngine.process_signal rc
        (ExecutionEngine.process_signal rc st ex sig now).2.1 ex2 sig2 now2).2.1 =
      (ExecutionEngine.process_signal rc st ex sig now).2.1 ∧
    (ExecutionEngine.process_signal rc
        (ExecutionEngine.process_signal rc st ex sig now).2.1 ex2 sig2 now2).2.2.2 = [] := by
  have hmem : sig2.id ∈ (ExecutionEngine.process_signal rc st ex sig now).2.1.processed_signals := by
    rw [hid]
    exact process_signal_true_marks rc st ex sig now h1
  exact process_signal_already rc _ ex2 sig2 now2 hmem

/-- C4 witness: a concrete successful entry signal; replaying the same
signal returns false with no state change and no submitted order. -/
theorem C4_process_signal_at_most_once_witness :
    (ExecutionEngine.process_signal rcD
        (ExecutionEngine.process_signal rcD stRunning exchW sigW 0).2.1 exchW sigW 1).1 = false ∧
    (ExecutionEngine.process_signal rcD
        (ExecutionEngine.process_signal rcD stRunning exchW sigW 0).2.1 exchW sigW 1).2.1 =
      (ExecutionEngine.process_signal rcD stRunning exchW sigW 0).2.1 ∧
    (ExecutionEngine.process_signal rcD
        (ExecutionEngine.process_signal rcD stRunning exchW sigW 0).2.1 exchW sigW 1).2.2.2 = [] :=
  C4_process_signal_at_most_once rcD stRunning exchW exchW sigW 0 1 sigW
    (by norm_num [ExecutionEngine.process_signal, ExecutionEngine.process_entry_signal,
      Signal.is_active, Signal.execute, truthy, RiskCalculator.calculate_position_size,
      RiskCalculator.risk_amount, per_unit_risk, pyRound, OrderFactory.create_limit_order,
      mapAppend, sigW, stRunning, exchW, rcD, instU]) rfl

/-- update_status called without fill arguments (as the monitor loop calls
it, engine.py line 396) only rewrites the status: the fill-tracking fields
stay untouched. -/
theorem update_status_nofill (o : Order) (s : OrderStatus) :
    (o.update_status s).average_fill_price = o.average_fill_price ∧
    (o.update_status s).filled_quantity = o.filled_quantity ∧
    (o.update_status s).status = s :=
  ⟨rfl, rfl, rfl⟩

/-- PositionFactory.create_position rejects a missing entry price (pydantic
ValidationError). -/
theorem create_position_none (inst : Instrument) (side : OrderSide) (qty : ℚ)
    (sid : Option String) (sl tp : Option ℚ) (ids : List String) (now : ℕ) :
    PositionFactory.create_position inst side qty none none sid sl tp ids now =
      Except.error "ValidationError: none is not an allowed value" := by
  simp [PositionFactory.create_position]

/-- With no average fill price recorded on the order, fill handling always
raises: the exit path hits a TypeError on the None exit price, the entry
path a pydantic ValidationError in Position construction. -/
theorem handle_filled_order_nofill (st : EngineState) (ex : Exchange) (o : Order)
    (now : ℕ) (ha : o.average_fill_price = none) :
    ∃ e, ExecutionEngine.handle_filled_order st ex o now = Except.error e := by
  unfold ExecutionEngine.handle_filled_order
  cases hf : st.active_positions.find? (fun kv => decide (o.id ∈ kv.2.exit_order_ids)) with
  | some kv =>
    dsimp only
    unfold ExecutionEngine.handle_exit_fill
    rw [ha]
    exact ⟨_, rfl⟩
  | none =>
    dsimp only
    unfold ExecutionEngine.handle_entry_fill
    rw [ha, create_position_none]
    exact ⟨_, rfl⟩

/-- C1: the monitor loop records no fill quantity or price when it observes
a broker status change (it calls update_status with the status alone), so
the tracked order still has average_fill_price = None when fill handling
runs; Position construction then fails validation, the exception is
swallowed by the loop, and the engine ends the step with its positions
unchanged and no protective (or any) order submitted — no Position is ever
created from a FILLED/PARTIALLY_FILLED report, contrary to the claim. -/
theorem C1_monitor_fill_creates_nothing (st : EngineState) (ex : Exchange)
    (order_id : String) (now : ℕ)
    (h : ∀ o, st.active_orders.lookup order_id = some o → o.average_fill_price = none) :
    (ExecutionEngine.monitor_step st ex order_id now).1.active_positions = st.active_positions ∧
    (ExecutionEngine.monitor_step st ex order_id now).2 = [] := by
  unfold ExecutionEngine.monitor_step
  cases hl : st.active_orders.lookup order_id with
  | none => exact ⟨rfl, rfl⟩
  | some o =>
    have ho := h o hl
    dsimp only
    by_cases h1 : o.is_active
    swap
    · simp [h1]
    · simp only [h1, not_true, Bool.not_true, if_false, ite_false]
      cases hs : ex.order_status o.exchange_order_id with
      | none => exact ⟨rfl, rfl⟩
      | some status =>
        dsimp only
        by_cases h2 : status = o.status
        · simp [h2]
        · simp only [h2, ne_eq, not_false_eq_true, if_true, ite_true, if_neg, ite_not]
          by_cases h3 : status = OrderStatus.filled ∨ status = OrderStatus.partFilled
          · have ha' : (o.update_status status).average_fill_price = none := by
              rw [(update_status_nofill o status).1]; exact ho
            obtain ⟨e, he⟩ :=
              handle_filled_order_nofill
                { st with active_orders := assocSet order_id (o.update_status status) st.active_orders }
                ex (o.update_status status) now ha'
            rw [if_pos h3, he]
            exact ⟨rfl, rfl⟩
          · rw [if_neg h3]
            dsimp only
            split_ifs <;> exact ⟨rfl, rfl⟩

/-- C1 witness: a tracked 10-unit buy order with stop-loss 95 and
take-profit 110 is reported FILLED; the step creates no position and places
no order. -/
theorem C1_monitor_fill_creates_nothing_witness :
    (ExecutionEngine.monitor_step stC1 exchW "o1" 7).1.active_positions = stC1.active_positions ∧
    (ExecutionEngine.monitor_step stC1 exchW "o1" 7).2 = [] :=
  C1_monitor_fill_creates_nothing stC1 exchW "o1" 7 (by
    intro o ho
    simp [stC1, ordC1, List.lookup] at ho
    rw [← ho])

end DeepTerminal
